import Mathlib

/-!
Shallow embedding of Quilkin's xDS control-plane server (`src/xds/server.rs`)
and admin HTTP endpoint (`src/admin.rs`), with the collaborating pieces that
live outside the provided sources (resource type URLs, config encoding, the
health module) modelled from the specification.
-/

namespace Quilkin

/-- The closed enumeration of xDS resource types served by the control plane.
Modelled from the spec: the `ResourceType` enum itself lives in
`src/xds/resource.rs`, which is not among the provided sources; the spec fixes
it as the closed set Cluster, Endpoint, Listener. -/
inductive ResourceType
  | cluster
  | endpoint
  | listener
  deriving DecidableEq, Repr

/-- Modelled from the spec: each resource type has a stable type-URL string
used as protocol identity (`ResourceType::type_url` in `src/xds/resource.rs`,
not among the provided sources). -/
def ResourceType.typeUrl : ResourceType → String
  | .cluster => "type.googleapis.com/envoy.config.cluster.v3.Cluster"
  | .endpoint => "type.googleapis.com/envoy.config.endpoint.v3.ClusterLoadAssignment"
  | .listener => "type.googleapis.com/envoy.config.listener.v3.Listener"

/-- Modelled from the spec: `parse(type_url) -> ResourceType` fails with
UnknownResourceType on any string that is not one of the three type URLs
(`FromStr for ResourceType` in `src/xds/resource.rs`, not among the provided
sources). The error carries the offending URL. -/
def parseResourceType (s : String) : Except String ResourceType :=
  if s = ResourceType.cluster.typeUrl then .ok .cluster
  else if s = ResourceType.endpoint.typeUrl then .ok .endpoint
  else if s = ResourceType.listener.typeUrl then .ok .listener
  else .error s

/-- RPC status values produced by the server (`tonic::Status` values built in
`src/xds/server.rs`, plus the UnknownResourceType error the spec assigns to
resource-type parse failures). -/
inductive Status
  | invalidArgument (msg : String)
  | internal (msg : String)
  | unimplemented (msg : String)
  | unknownResourceType (typeUrl : String)
  deriving DecidableEq, Repr

/-- The `node` field of a discovery request (only its `id` is consulted by the
server). -/
structure Node where
  id : String
  deriving DecidableEq, Repr

/-- Inbound `DiscoveryRequest` message, restricted to the fields
`src/xds/server.rs` consults. -/
structure DiscoveryRequest where
  node : Option Node
  type_url : String
  resource_names : List String
  response_nonce : String
  error_detail : Option String
  deriving DecidableEq, Repr

/-- Outbound `DiscoveryResponse` message; resources are opaque blobs. -/
structure DiscoveryResponse where
  version_info : String
  resources : List String
  type_url : String
  nonce : String
  control_plane : Option String
  deriving DecidableEq, Repr

/-- One watcher entry (`Watchers` in `src/xds/server.rs`): a version counter
and a broadcast channel, modelled by the number of notifications sent on it. -/
structure Watchers where
  version : Nat
  notifyCount : Nat
  deriving DecidableEq, Repr

/-- The `ControlPlane` server state observable by streams: one watcher entry
per resource type (`ResourceMap<Watchers>`) plus the config's `id` cell. -/
structure ControlPlaneState where
  clusterW : Watchers
  endpointW : Watchers
  listenerW : Watchers
  id : String
  deriving DecidableEq, Repr

/-- Index the watcher map by resource type (`self.watchers[resource_type]`). -/
def ControlPlaneState.get (cp : ControlPlaneState) : ResourceType → Watchers
  | .cluster => cp.clusterW
  | .endpoint => cp.endpointW
  | .listener => cp.listenerW

/-- The current version counter for a resource type. -/
def ControlPlaneState.ver (cp : ControlPlaneState) (rt : ResourceType) : Nat :=
  (cp.get rt).version

/-- The number of broadcast notifications sent for a resource type. -/
def ControlPlaneState.notifySent (cp : ControlPlaneState) (rt : ResourceType) : Nat :=
  (cp.get rt).notifyCount

/-- `ControlPlane::push_update`: increment the resource type's version counter
by one, then broadcast a unit notification on its channel. -/
def pushUpdate (rt : ResourceType) (cp : ControlPlaneState) : ControlPlaneState :=
  match rt with
  | .cluster =>
    { cp with clusterW := ⟨cp.clusterW.version + 1, cp.clusterW.notifyCount + 1⟩ }
  | .endpoint =>
    { cp with endpointW := ⟨cp.endpointW.version + 1, cp.endpointW.notifyCount + 1⟩ }
  | .listener =>
    { cp with listenerW := ⟨cp.listenerW.version + 1, cp.listenerW.notifyCount + 1⟩ }

/-- The callback `ControlPlane::from_arc` registers on `config.clusters.watch`:
`push_update(Endpoint)` then `push_update(Cluster)`. -/
def clustersChangedCallback (cp : ControlPlaneState) : ControlPlaneState :=
  pushUpdate .cluster (pushUpdate .endpoint cp)

/-- The callback `ControlPlane::from_arc` registers on `config.filters.watch`:
`push_update(Listener)`. -/
def filtersChangedCallback (cp : ControlPlaneState) : ControlPlaneState :=
  pushUpdate .listener cp

/-- A change event on one of the watched configuration cells. -/
inductive ConfigEvent
  | clustersChanged
  | filtersChanged
  deriving DecidableEq, Repr

/-- Apply the registered watch callback for one cell-change event. -/
def applyConfigEvent (cp : ControlPlaneState) : ConfigEvent → ControlPlaneState
  | .clustersChanged => clustersChangedCallback cp
  | .filtersChanged => filtersChangedCallback cp

/-- Apply a sequence of cell-change events in order. -/
def applyConfigEvents (cp : ControlPlaneState) (evs : List ConfigEvent) : ControlPlaneState :=
  evs.foldl applyConfigEvent cp

/-- The stream engine's external collaborators, kept abstract:
`encode` is `Config::discovery_request` (modelled from the spec: it lives in
`src/config.rs`, not among the provided sources; it encodes a snapshot for an
id, resource type and name filter, failing with an encode error);
`isUuid` is `uuid::Uuid::parse_str(..).is_ok()`; `uuidGen` supplies the
freshly generated UUID v4 string for the n-th `uuid::Uuid::new_v4()` call on
the stream. -/
structure Env where
  encode : String → ResourceType → List String → Except String (List String)
  isUuid : String → Bool
  uuidGen : Nat → String

/-- `ControlPlane::discovery_response`: encode via `Config::discovery_request`
(mapping an encode error to an Internal status), then stamp `version_info`
with the watcher's current version counter rendered in decimal,
`control_plane.identifier` with the config id, and the fresh nonce. -/
def discoveryResponse (env : Env) (cp : ControlPlaneState) (nonce : String)
    (id : String) (rt : ResourceType) (names : List String) :
    Except Status DiscoveryResponse :=
  match env.encode id rt names with
  | .error e => .error (.internal e)
  | .ok rs =>
    .ok { version_info := Nat.repr (cp.ver rt)
          resources := rs
          type_url := rt.typeUrl
          nonce := nonce
          control_plane := some cp.id }

/-- Per-stream engine state: the id, resource type and resource names captured
from the initial request, the bounded `pending_acks` nonce cache (newest
first), and how many UUIDs have been generated so far. -/
structure StreamState where
  id : String
  rt : ResourceType
  names : List String
  pendingAcks : List String
  nonceCtr : Nat
  deriving DecidableEq, Repr

/-- `pending_acks.cache_set(nonce, ())` on the size-50 cache: insert the nonce
and evict beyond 50 entries (least-recently-inserted first). The cache's 1 s
TTL is wall-clock behaviour and is not modelled. -/
def cacheSet (nonce : String) (cache : List String) : List String :=
  (nonce :: cache).take 50

/-- One item of the inbound streaming half: a request or a transport error. -/
inductive StreamItem
  | req (m : DiscoveryRequest)
  | transportErr (e : Status)
  deriving DecidableEq, Repr

/-- One wake-up of the stream engine's select loop. -/
inductive StreamEvent
  | watcherFired
  | inbound (item : StreamItem)
  | inboundEof
  deriving DecidableEq, Repr

/-- An event interleaved into a running stream: a `push_update` performed by a
configuration change elsewhere in the process, or a stream-engine wake-up. -/
inductive LoopEvent
  | push (rt : ResourceType)
  | stream (ev : StreamEvent)
  deriving DecidableEq, Repr

/-- The result of one iteration of the stream loop: emit a response and
continue, continue silently, end the output stream with an inline error item
(the `?` inside `try_stream!`), panic (the `.unwrap()` on the resend path), or
break out of the loop normally. -/
inductive StepRes
  | emit (r : DiscoveryResponse) (s : StreamState)
  | skip (s : StreamState)
  | fail (e : Status)
  | crash
  | finish
  deriving DecidableEq, Repr

/-- `new_message.node.as_ref().map(|node| &*node.id).unwrap_or(&*id)`: the id
used for a resend is the new message's node id when present, otherwise the id
captured from the initial request. -/
def msgSenderId (m : DiscoveryRequest) (s : StreamState) : String :=
  match m.node with
  | some n => n.id
  | none => s.id

/-- The resend performed at the end of the inbound-message branch
(`yield this.discovery_response(id, resource_type, &message.resource_names)
.map(..).unwrap()`): on encode failure the code panics rather than yielding an
error item. -/
def resendStep (env : Env) (cp : ControlPlaneState) (s : StreamState)
    (m : DiscoveryRequest) (mrt : ResourceType) : StepRes :=
  match discoveryResponse env cp (env.uuidGen s.nonceCtr) (msgSenderId m s) mrt s.names with
  | .ok r =>
    .emit r { s with pendingAcks := cacheSet r.nonce s.pendingAcks, nonceCtr := s.nonceCtr + 1 }
  | .error _ => .crash

/-- One iteration of the `tokio::select!` loop in
`stream_aggregated_resources` (lines 182-232 of `src/xds/server.rs`). -/
def stepLoop (env : Env) (cp : ControlPlaneState) (s : StreamState) :
    StreamEvent → StepRes
  | .watcherFired =>
    match discoveryResponse env cp (env.uuidGen s.nonceCtr) s.id s.rt s.names with
    | .ok r =>
      .emit r { s with pendingAcks := cacheSet r.nonce s.pendingAcks, nonceCtr := s.nonceCtr + 1 }
    | .error e => .fail e
  | .inbound (.transportErr _) => .skip s
  | .inbound (.req m) =>
    match parseResourceType m.type_url with
    | .error _ => .skip s
    | .ok mrt =>
      if m.error_detail.isSome then
        resendStep env cp s m mrt
      else if env.isUuid m.response_nonce then
        if m.response_nonce ∈ s.pendingAcks then .skip s else .skip s
      else
        resendStep env cp s m mrt
  | .inboundEof => .finish

/-- An item of the outbound stream: `Ok(DiscoveryResponse)` or an inline
`Err(Status)`. -/
inductive Output
  | item (r : DiscoveryResponse)
  | errItem (e : Status)
  deriving DecidableEq, Repr

/-- How a run of the loop ended: still running when the event list was
exhausted, clean termination on inbound EOF, terminated by an inline error
item, or terminated by a panic. -/
inductive RunEnd
  | pending
  | normal
  | failed
  | crashed
  deriving DecidableEq, Repr

/-- Run the stream loop over a sequence of interleaved events, collecting the
outbound stream items produced. -/
def runLoop (env : Env) : ControlPlaneState → StreamState → List LoopEvent →
    List Output × RunEnd
  | _, _, [] => ([], .pending)
  | cp, s, .push rt :: evs => runLoop env (pushUpdate rt cp) s evs
  | cp, s, .stream ev :: evs =>
    match stepLoop env cp s ev with
    | .emit r s' =>
      let p := runLoop env cp s' evs
      (.item r :: p.1, p.2)
    | .skip s' => runLoop env cp s' evs
    | .fail e => ([.errItem e], .failed)
    | .crash => ([], .crashed)
    | .finish => ([], .normal)

/-- The handshake of `stream_aggregated_resources` (lines 154-176): read the
first inbound item, require a node identifier, parse the resource type, build
the initial response, and seed `pending_acks` with its nonce. -/
def handshake1 (env : Env) (cp : ControlPlaneState) :
    Option StreamItem → Except Status (DiscoveryResponse × StreamState)
  | none => .error (.invalidArgument "No message found")
  | some (.transportErr e) => .error e
  | some (.req m) =>
    match m.node with
    | none => .error (.invalidArgument "Node identifier required")
    | some node =>
      match parseResourceType m.type_url with
      | .error u => .error (.unknownResourceType u)
      | .ok rt =>
        match discoveryResponse env cp (env.uuidGen 0) node.id rt m.resource_names with
        | .error e => .error e
        | .ok resp =>
          .ok (resp, { id := node.id
                       rt := rt
                       names := m.resource_names
                       pendingAcks := cacheSet resp.nonce []
                       nonceCtr := 1 })

/-- The whole RPC: a handshake failure fails the RPC with a status and no
stream is returned; on success the initial response is the first stream item,
followed by the loop's items. -/
def streamAggregatedResources (env : Env) (cp : ControlPlaneState)
    (first : Option StreamItem) (evs : List LoopEvent) :
    Except Status (List Output × RunEnd) :=
  match handshake1 env cp first with
  | .error e => .error e
  | .ok (resp, s) =>
    let p := runLoop env cp s evs
    .ok (.item resp :: p.1, p.2)

/-- The outbound stream items a client observes for a full run (none when the
handshake fails the RPC). -/
def fullRunOutputs (env : Env) (cp : ControlPlaneState)
    (first : Option StreamItem) (evs : List LoopEvent) : List Output :=
  match streamAggregatedResources env cp first evs with
  | .error _ => []
  | .ok p => p.1

/-- A delta discovery request, opaque to the server. -/
structure DeltaDiscoveryRequest where
  payload : String
  deriving DecidableEq, Repr

/-- `delta_aggregated_resources`: always fails immediately with an
Unimplemented status, ignoring the request. -/
def deltaAggregatedResources (_request : DeltaDiscoveryRequest) : Except Status Unit :=
  .error (.unimplemented "Quilkin doesn't currently support Delta xDS")

/-! ### Admin HTTP endpoint (`src/admin.rs`) -/

/-- HTTP method of an admin request; only GET is distinguished by the code. -/
inductive HttpMethod
  | get
  | post
  | put
  | head
  deriving DecidableEq, Repr

/-- The admin server mode (`admin::Mode`). -/
inductive Mode
  | proxy
  | xds
  deriving DecidableEq, Repr

/-- An HTTP response: status code and body. -/
structure HttpResponse where
  status : Nat
  body : String
  deriving DecidableEq, Repr

/-- The configuration visible to the admin endpoint. Modelled from the spec
(`Config` lives in `src/config.rs`, not among the provided sources):
`endpointsCount` is `config.clusters.load().endpoints().count()` and
`jsonDump` is the outcome of `serde_json::to_string(&config)`. -/
structure AdminConfig where
  endpointsCount : Nat
  jsonDump : Except String String

/-- The health module's state. Modelled from the spec: `admin/health.rs` is
not among the provided sources; the spec defines "healthy" as a liveness
predicate that is true from startup until shutdown. -/
structure Health where
  healthy : Bool
  deriving DecidableEq, Repr

/-- `Health::check_healthy`. Modelled from the spec: 200 when healthy,
otherwise an internal-server-error response. -/
def checkHealthy (h : Health) : HttpResponse :=
  if h.healthy then ⟨200, "ok"⟩ else ⟨500, ""⟩

/-- `check_proxy_readiness`: 200 with body "ok" when the loaded cluster
snapshot has at least one endpoint, 500 with empty body otherwise. -/
def checkProxyReadiness (c : AdminConfig) : HttpResponse :=
  if c.endpointsCount > 0 then ⟨200, "ok"⟩ else ⟨500, ""⟩

/-- `collect_metrics`: 200 with the text exposition body when the registry
encodes, 500 otherwise. The encoder outcome is external state, passed in. -/
def collectMetrics (metricsBody : Except Unit String) : HttpResponse :=
  match metricsBody with
  | .ok b => ⟨200, b⟩
  | .error _ => ⟨500, ""⟩

/-- `handle_request`: route an admin HTTP request exactly as the `match` in
`src/admin.rs` lines 69-95. -/
def handleRequest (method : HttpMethod) (path : String) (mode : Mode)
    (config : AdminConfig) (health : Health) (metricsBody : Except Unit String) :
    HttpResponse :=
  match method with
  | .get =>
    if path = "/metrics" then collectMetrics metricsBody
    else if path = "/live" ∨ path = "/livez" then checkHealthy health
    else if path = "/ready" ∨ path = "/readyz" then
      match mode with
      | .proxy => checkProxyReadiness config
      | .xds => checkHealthy health
    else if path = "/config" then
      match config.jsonDump with
      | .ok body => ⟨200, body⟩
      | .error err => ⟨500, "failed to create config dump: " ++ err⟩
    else ⟨404, ""⟩
  | _ => ⟨404, ""⟩

/-! ### Derived observations and fixtures -/

/-- The type URLs of the `Ok` items of an outbound stream, in order. -/
def itemTypeUrls (outs : List Output) : List String :=
  outs.filterMap fun o =>
    match o with
    | .item r => some r.type_url
    | .errItem _ => none

/-- The `version_info` string of an `Ok` stream item when its type URL is the
one of resource type `t`. -/
def outputTypeVersion (t : ResourceType) : Output → Option String
  | .item r => if r.type_url = t.typeUrl then some r.version_info else none
  | .errItem _ => none

/-- The `version_info` strings carried by the responses for resource type `t`
on an outbound stream, in emission order. -/
def versionStringsFor (t : ResourceType) (outs : List Output) : List String :=
  outs.filterMap (outputTypeVersion t)

/-- The decimal value of one character, when it is a digit. -/
def charDigit (c : Char) : Option Nat :=
  if '0' ≤ c ∧ c ≤ '9' then some (c.toNat - '0'.toNat) else none

/-- Interpret a list of characters as a decimal numeral. -/
def decimalAux : List Char → Nat → Option Nat
  | [], acc => some acc
  | c :: cs, acc =>
    match charDigit c with
    | none => none
    | some d => decimalAux cs (acc * 10 + d)

/-- Interpret a string as a decimal integer (none when empty or non-numeric). -/
def decimalOf (s : String) : Option Nat :=
  match s.data with
  | [] => none
  | l => decimalAux l 0

/-- Those version strings interpreted as decimal integers. -/
def versionNatsFor (t : ResourceType) (outs : List Output) : List Nat :=
  (versionStringsFor t outs).filterMap decimalOf

/-- A concrete environment whose encoder always succeeds with an empty
resource list. -/
def env0 : Env :=
  { encode := fun _ _ _ => .ok []
    isUuid := fun s => !s.isEmpty
    uuidGen := fun n => "nonce-" ++ Nat.repr n }

/-- A concrete environment whose encoder always fails. -/
def envBad : Env :=
  { encode := fun _ _ _ => .error "boom"
    isUuid := fun s => !s.isEmpty
    uuidGen := fun n => "nonce-" ++ Nat.repr n }

/-- A fresh control-plane state: all version counters zero, id "quilkin". -/
def cp0 : ControlPlaneState := ⟨⟨0, 0⟩, ⟨0, 0⟩, ⟨0, 0⟩, "quilkin"⟩

/-- A valid initial request subscribing to Endpoint with no name filter. -/
def initEndpointMsg0 : DiscoveryRequest :=
  ⟨some ⟨"quilkin"⟩, ResourceType.endpoint.typeUrl, [], "", none⟩

/-- The first inbound item of the concrete runs. -/
def first0 : Option StreamItem := some (.req initEndpointMsg0)

/-- A NACK follow-up message (error detail present). -/
def nackMsg0 : DiscoveryRequest :=
  ⟨none, ResourceType.endpoint.typeUrl, [], "", some "bad"⟩

/-- A follow-up subscription message for Listener (no error detail, empty
nonce). -/
def listenerMsg0 : DiscoveryRequest :=
  ⟨none, ResourceType.listener.typeUrl, [], "", none⟩

/-- A first message with no node identifier. -/
def noNodeMsg0 : DiscoveryRequest :=
  ⟨none, ResourceType.endpoint.typeUrl, [], "", none⟩

/-- A first message whose type URL does not parse. -/
def badTypeInitMsg0 : DiscoveryRequest := ⟨some ⟨"quilkin"⟩, "invalid", [], "", none⟩

/-- A mid-stream message whose type URL does not parse. -/
def badTypeMidMsg0 : DiscoveryRequest := ⟨none, "invalid", [], "", none⟩

/-- The stream state right after the concrete Endpoint handshake. -/
def sW : StreamState := ⟨"quilkin", .endpoint, [], ["nonce-0"], 1⟩

/-- The initial response of the concrete Endpoint handshake. -/
def r0c : DiscoveryResponse :=
  ⟨"0", [], ResourceType.endpoint.typeUrl, "nonce-0", some "quilkin"⟩

/-- The response emitted by a watcher wake-up from state `sW`. -/
def rW : DiscoveryResponse :=
  ⟨"0", [], ResourceType.endpoint.typeUrl, "nonce-1", some "quilkin"⟩

/-- The stream state after that watcher emission. -/
def sW' : StreamState := ⟨"quilkin", .endpoint, [], ["nonce-1", "nonce-0"], 2⟩

/-! ### Helper lemmas -/

lemma typeUrl_inj {a b : ResourceType} (h : a.typeUrl = b.typeUrl) : a = b := by
  cases a <;> cases b <;> simp_all [ResourceType.typeUrl]

lemma ver_pushUpdate_le (rt t : ResourceType) (cp : ControlPlaneState) :
    cp.ver t ≤ (pushUpdate rt cp).ver t := by
  cases rt <;> cases t <;>
    simp [pushUpdate, ControlPlaneState.ver, ControlPlaneState.get]

lemma ver_applyConfigEvent_le (cp : ControlPlaneState) (e : ConfigEvent) (t : ResourceType) :
    cp.ver t ≤ (applyConfigEvent cp e).ver t := by
  cases e
  · exact le_trans (ver_pushUpdate_le .endpoint t cp)
      (ver_pushUpdate_le .cluster t (pushUpdate .endpoint cp))
  · exact ver_pushUpdate_le .listener t cp

lemma ver_applyConfigEvents_le (evs : List ConfigEvent) :
    ∀ (cp : ControlPlaneState) (t : ResourceType),
      cp.ver t ≤ (applyConfigEvents cp evs).ver t := by
  induction evs with
  | nil => intro cp t; simp [applyConfigEvents]
  | cons e evs ih =>
    intro cp t
    have h1 : applyConfigEvents cp (e :: evs) = applyConfigEvents (applyConfigEvent cp e) evs := by
      simp [applyConfigEvents]
    rw [h1]
    exact le_trans (ver_applyConfigEvent_le cp e t) (ih (applyConfigEvent cp e) t)

lemma discoveryResponse_ok {env : Env} {cp : ControlPlaneState} {nonce i : String}
    {t : ResourceType} {ns : List String} {r : DiscoveryResponse}
    (h : discoveryResponse env cp nonce i t ns = .ok r) :
    r.version_info = Nat.repr (cp.ver t) ∧ r.type_url = t.typeUrl ∧
    r.nonce = nonce ∧ r.control_plane = some cp.id := by
  unfold discoveryResponse at h
  cases henc : env.encode i t ns with
  | error e => rw [henc] at h; simp at h
  | ok rs =>
    rw [henc] at h
    simp only [Except.ok.injEq] at h
    rw [← h]
    exact ⟨rfl, rfl, rfl, rfl⟩

lemma stepLoop_skip {env : Env} {cp : ControlPlaneState} {s : StreamState}
    {ev : StreamEvent} {s' : StreamState}
    (h : stepLoop env cp s ev = .skip s') : s' = s := by
  cases ev with
  | watcherFired =>
    unfold stepLoop at h
    cases hd : discoveryResponse env cp (env.uuidGen s.nonceCtr) s.id s.rt s.names <;>
      rw [hd] at h <;> simp at h
  | inbound item =>
    cases item with
    | transportErr e => simp only [stepLoop, StepRes.skip.injEq] at h; exact h.symm
    | req m =>
      simp only [stepLoop] at h
      cases hp : parseResourceType m.type_url with
      | error u =>
        rw [hp] at h
        simp only [StepRes.skip.injEq] at h
        exact h.symm
      | ok mrt =>
        rw [hp] at h
        have hre : resendStep env cp s m mrt ≠ .skip s' := by
          intro hr
          unfold resendStep at hr
          cases hd : discoveryResponse env cp (env.uuidGen s.nonceCtr) (msgSenderId m s) mrt s.names <;>
            rw [hd] at hr <;> simp at hr
        by_cases he : m.error_detail.isSome
        · simp only [he, if_true] at h
          exact absurd h hre
        · simp only [he, if_false, Bool.false_eq_true] at h
          by_cases hu : env.isUuid m.response_nonce
          · simp only [hu, if_true] at h
            by_cases hm : m.response_nonce ∈ s.pendingAcks <;>
              simp only [hm, if_true, if_false, StepRes.skip.injEq] at h <;> exact h.symm
          · simp only [hu, if_false, Bool.false_eq_true] at h
            exact absurd h hre
  | inboundEof => simp [stepLoop] at h

lemma stepLoop_emit_cases {env : Env} {cp : ControlPlaneState} {s : StreamState}
    {ev : StreamEvent} {r : DiscoveryResponse} {s' : StreamState}
    (h : stepLoop env cp s ev = .emit r s') :
    s' = { s with pendingAcks := cacheSet r.nonce s.pendingAcks, nonceCtr := s.nonceCtr + 1 } ∧
    ((ev = .watcherFired ∧
        discoveryResponse env cp (env.uuidGen s.nonceCtr) s.id s.rt s.names = .ok r) ∨
      (∃ m mrt, ev = .inbound (.req m) ∧ parseResourceType m.type_url = .ok mrt ∧
        discoveryResponse env cp (env.uuidGen s.nonceCtr) (msgSenderId m s) mrt s.names = .ok r)) := by
  cases ev with
  | watcherFired =>
    simp only [stepLoop] at h
    cases hd : discoveryResponse env cp (env.uuidGen s.nonceCtr) s.id s.rt s.names with
    | error e => rw [hd] at h; simp at h
    | ok r0 =>
      rw [hd] at h
      simp only [StepRes.emit.injEq] at h
      obtain ⟨h1, h2⟩ := h
      subst h1
      exact ⟨h2.symm, .inl ⟨rfl, rfl⟩⟩
  | inbound item =>
    cases item with
    | transportErr e => simp only [stepLoop] at h; exact absurd h (by simp)
    | req m =>
      simp only [stepLoop] at h
      cases hp : parseResourceType m.type_url with
      | error u => rw [hp] at h; simp at h
      | ok mrt =>
        rw [hp] at h
        have hre : resendStep env cp s m mrt = .emit r s' →
            s' = { s with pendingAcks := cacheSet r.nonce s.pendingAcks,
                          nonceCtr := s.nonceCtr + 1 } ∧
            discoveryResponse env cp (env.uuidGen s.nonceCtr) (msgSenderId m s) mrt s.names = .ok r := by
          intro hr
          unfold resendStep at hr
          cases hd : discoveryResponse env cp (env.uuidGen s.nonceCtr) (msgSenderId m s) mrt s.names with
          | error e => rw [hd] at hr; simp at hr
          | ok r0 =>
            rw [hd] at hr
            simp only [StepRes.emit.injEq] at hr
            obtain ⟨h1, h2⟩ := hr
            subst h1
            exact ⟨h2.symm, rfl⟩
        by_cases he : m.error_detail.isSome
        · simp only [he, if_true] at h
          obtain ⟨h1, h2⟩ := hre h
          exact ⟨h1, .inr ⟨m, mrt, rfl, hp, h2⟩⟩
        · simp only [he, if_false, Bool.false_eq_true] at h
          by_cases hu : env.isUuid m.response_nonce
          · simp only [hu, if_true] at h
            by_cases hm : m.response_nonce ∈ s.pendingAcks <;>
              simp only [hm, if_true, if_false] at h <;> simp at h
          · simp only [hu, if_false, Bool.false_eq_true] at h
            obtain ⟨h1, h2⟩ := hre h
            exact ⟨h1, .inr ⟨m, mrt, rfl, hp, h2⟩⟩
  | inboundEof => simp only [stepLoop] at h; exact absurd h (by simp)

lemma handshake1_ok {env : Env} {cp : ControlPlaneState} {first : Option StreamItem}
    {resp : DiscoveryResponse} {s : StreamState}
    (h : handshake1 env cp first = .ok (resp, s)) :
    ∃ m node, first = some (.req m) ∧ m.node = some node ∧
      parseResourceType m.type_url = .ok s.rt ∧ s.id = node.id ∧
      s.names = m.resource_names ∧ s.pendingAcks = [resp.nonce] ∧ s.nonceCtr = 1 ∧
      discoveryResponse env cp (env.uuidGen 0) node.id s.rt m.resource_names = .ok resp := by
  cases first with
  | none => simp [handshake1] at h
  | some item =>
    cases item with
    | transportErr e => simp [handshake1] at h
    | req m =>
      cases hn : m.node with
      | none => simp [handshake1, hn] at h
      | some node =>
        cases hp : parseResourceType m.type_url with
        | error u => simp [handshake1, hn, hp] at h
        | ok rt =>
          cases hd : discoveryResponse env cp (env.uuidGen 0) node.id rt m.resource_names with
          | error e => simp [handshake1, hn, hp, hd] at h
          | ok resp0 =>
            simp only [handshake1, hn, hp, hd, Except.ok.injEq, Prod.mk.injEq] at h
            obtain ⟨h1, h2⟩ := h
            subst h1
            subst h2
            exact ⟨m, node, rfl, hn, hp, rfl, rfl, by simp [cacheSet], rfl, hd⟩

/-! ### Claim theorems -/

/-- C3: in the Active state, for an inbound message whose type URL parses:
a NACK (error detail present) produces exactly one outbound response, a
resend carrying the next freshly generated nonce; an ACK (no error detail,
UUID-shaped nonce found in the pending-acks cache) produces no outbound
response; a UUID-shaped nonce not found in the cache produces no outbound
response; and otherwise (no error detail, empty or non-UUID nonce) exactly
one resend is produced. The emitting cases assume the encoder succeeds. -/
theorem c3_active_classification (env : Env) (cp : ControlPlaneState)
    (s : StreamState) (m : DiscoveryRequest) (mrt : ResourceType)
    (hp : parseResourceType m.type_url = .ok mrt) :
    (m.error_detail.isSome = true →
      ∀ rs, env.encode (msgSenderId m s) mrt s.names = .ok rs →
      ∃ r, stepLoop env cp s (.inbound (.req m)) =
          .emit r { s with pendingAcks := cacheSet r.nonce s.pendingAcks,
                           nonceCtr := s.nonceCtr + 1 } ∧
        r.nonce = env.uuidGen s.nonceCtr) ∧
    (m.error_detail = none → env.isUuid m.response_nonce = true →
      m.response_nonce ∈ s.pendingAcks →
      stepLoop env cp s (.inbound (.req m)) = .skip s) ∧
    (m.error_detail = none → env.isUuid m.response_nonce = true →
      m.response_nonce ∉ s.pendingAcks →
      stepLoop env cp s (.inbound (.req m)) = .skip s) ∧
    (m.error_detail = none → env.isUuid m.response_nonce = false →
      ∀ rs, env.encode (msgSenderId m s) mrt s.names = .ok rs →
      ∃ r, stepLoop env cp s (.inbound (.req m)) =
          .emit r { s with pendingAcks := cacheSet r.nonce s.pendingAcks,
                           nonceCtr := s.nonceCtr + 1 } ∧
        r.nonce = env.uuidGen s.nonceCtr) := by
  refine ⟨?_, ?_, ?_, ?_⟩
  · intro he rs hrs
    refine ⟨⟨Nat.repr (cp.ver mrt), rs, mrt.typeUrl, env.uuidGen s.nonceCtr, some cp.id⟩,
      ?_, rfl⟩
    simp [stepLoop, hp, he, resendStep, discoveryResponse, hrs]
  · intro he hu hmem
    simp [stepLoop, hp, he, hu, hmem]
  · intro he hu hmem
    simp [stepLoop, hp, he, hu, hmem]
  · intro he hu rs hrs
    refine ⟨⟨Nat.repr (cp.ver mrt), rs, mrt.typeUrl, env.uuidGen s.nonceCtr, some cp.id⟩,
      ?_, rfl⟩
    simp [stepLoop, hp, he, hu, resendStep, discoveryResponse, hrs]

/-- C3 witness: a concrete NACK after the concrete Endpoint handshake
produces exactly one resend with the next fresh nonce. -/
theorem c3_witness :
    ∃ r, stepLoop env0 cp0 sW (.inbound (.req nackMsg0)) =
        .emit r { sW with pendingAcks := cacheSet r.nonce sW.pendingAcks,
                          nonceCtr := sW.nonceCtr + 1 } ∧
      r.nonce = env0.uuidGen sW.nonceCtr :=
  (c3_active_classification env0 cp0 sW nackMsg0 .endpoint rfl).1 rfl [] rfl

/-- C10: a successful handshake pins the stream state to the initial
message's node id, parsed resource type and resource names; no loop step
changes them (and the watch subscription, represented by the pinned resource
type the watcher branch encodes for, is never re-made); a watcher-triggered
emission encodes for the initial id and resource type, while a resend for a
subsequent inbound message encodes for that message's parsed type URL and its
node id when present (falling back to the initial id), always with the
initial resource names. -/
theorem c10_emission_sources (env : Env) (cp : ControlPlaneState) :
    (∀ (first : Option StreamItem) (resp : DiscoveryResponse) (s : StreamState),
      handshake1 env cp first = .ok (resp, s) →
      ∃ m node, first = some (.req m) ∧ m.node = some node ∧ s.id = node.id ∧
        parseResourceType m.type_url = .ok s.rt ∧ s.names = m.resource_names) ∧
    (∀ (s : StreamState) (ev : StreamEvent) (r : DiscoveryResponse) (s' : StreamState),
      stepLoop env cp s ev = .emit r s' →
      s'.rt = s.rt ∧ s'.names = s.names ∧ s'.id = s.id) ∧
    (∀ (s : StreamState) (ev : StreamEvent) (s' : StreamState),
      stepLoop env cp s ev = .skip s' → s' = s) ∧
    (∀ (s : StreamState) (r : DiscoveryResponse) (s' : StreamState),
      stepLoop env cp s .watcherFired = .emit r s' →
      discoveryResponse env cp (env.uuidGen s.nonceCtr) s.id s.rt s.names = .ok r) ∧
    (∀ (s : StreamState) (m : DiscoveryRequest) (r : DiscoveryResponse) (s' : StreamState),
      stepLoop env cp s (.inbound (.req m)) = .emit r s' →
      ∃ mrt, parseResourceType m.type_url = .ok mrt ∧
        discoveryResponse env cp (env.uuidGen s.nonceCtr) (msgSenderId m s) mrt s.names = .ok r) := by
  refine ⟨?_, ?_, ?_, ?_, ?_⟩
  · intro first resp s h
    obtain ⟨m, node, hf, hn, hp, hid, hnames, -, -, -⟩ := handshake1_ok h
    exact ⟨m, node, hf, hn, hid, hp, hnames⟩
  · intro s ev r s' h
    obtain ⟨hs, -⟩ := stepLoop_emit_cases h
    subst hs
    exact ⟨rfl, rfl, rfl⟩
  · intro s ev s' h
    exact stepLoop_skip h
  · intro s r s' h
    obtain ⟨-, hd⟩ := stepLoop_emit_cases h
    rcases hd with ⟨-, hd⟩ | ⟨m, mrt, hev, -, -⟩
    · exact hd
    · exact absurd hev (by simp)
  · intro s m r s' h
    obtain ⟨-, hd⟩ := stepLoop_emit_cases h
    rcases hd with ⟨hev, -⟩ | ⟨m', mrt, hev, hp, hd⟩
    · exact absurd hev (by simp)
    · have hm : m = m' := StreamItem.req.inj (StreamEvent.inbound.inj hev)
      subst hm
      exact ⟨mrt, hp, hd⟩

/-- C10 witness: the concrete Endpoint handshake pins id "quilkin", resource
type Endpoint and the empty names list. -/
theorem c10_witness :
    ∃ m node, first0 = some (.req m) ∧ m.node = some node ∧ sW.id = node.id ∧
      parseResourceType m.type_url = .ok sW.rt ∧ sW.names = m.resource_names :=
  (c10_emission_sources env0 cp0).1 first0 r0c sW rfl

/-- C1 counterexample: on a stream whose initial request pinned resource type
Endpoint, a subsequent inbound request with the Listener type URL makes the
stream emit a response encoded for Listener, so not every response on the
stream is encoded for the initial resource type. -/
theorem c1_counterexample :
    itemTypeUrls (fullRunOutputs env0 cp0 first0
      [.stream (.inbound (.req listenerMsg0))]) =
      [ResourceType.endpoint.typeUrl, ResourceType.listener.typeUrl] ∧
    ResourceType.listener.typeUrl ≠ ResourceType.endpoint.typeUrl :=
  ⟨rfl, by decide⟩

/-- C1 (amended): after a successful initial request the stream is pinned to
the initial resource names — every emitted response is encoded for them, and
no loop step changes the pinned id, resource type or names; watcher-triggered
responses are encoded for the initial resource type; but a resend triggered
by a subsequent inbound message is encoded for that message's type URL. -/
theorem c1_amended_pinned_names (env : Env) (cp : ControlPlaneState) :
    (∀ (s : StreamState) (ev : StreamEvent) (r : DiscoveryResponse) (s' : StreamState),
      stepLoop env cp s ev = .emit r s' →
      s'.names = s.names ∧ s'.rt = s.rt ∧ s'.id = s.id ∧
      ∃ i t, discoveryResponse env cp (env.uuidGen s.nonceCtr) i t s.names = .ok r) ∧
    (∀ (s : StreamState) (ev : StreamEvent) (s' : StreamState),
      stepLoop env cp s ev = .skip s' → s' = s) ∧
    (∀ (s : StreamState) (r : DiscoveryResponse) (s' : StreamState),
      stepLoop env cp s .watcherFired = .emit r s' →
      discoveryResponse env cp (env.uuidGen s.nonceCtr) s.id s.rt s.names = .ok r ∧
      r.type_url = s.rt.typeUrl) := by
  refine ⟨?_, ?_, ?_⟩
  · intro s ev r s' h
    obtain ⟨hs, hd⟩ := stepLoop_emit_cases h
    refine ⟨by rw [hs], by rw [hs], by rw [hs], ?_⟩
    rcases hd with ⟨-, hd⟩ | ⟨m, mrt, -, -, hd⟩
    · exact ⟨s.id, s.rt, hd⟩
    · exact ⟨msgSenderId m s, mrt, hd⟩
  · intro s ev s' h
    exact stepLoop_skip h
  · intro s r s' h
    obtain ⟨-, hd⟩ := stepLoop_emit_cases h
    rcases hd with ⟨-, hd⟩ | ⟨m, mrt, hev, -, -⟩
    · exact ⟨hd, (discoveryResponse_ok hd).2.1⟩
    · exact absurd hev (by simp)

/-- C1 witness: the concrete watcher emission from the post-handshake state
keeps the pinned names and resource type and is encoded for them. -/
theorem c1_witness :
    sW'.names = sW.names ∧ sW'.rt = sW.rt ∧ sW'.id = sW.id ∧
    ∃ i t, discoveryResponse env0 cp0 (env0.uuidGen sW.nonceCtr) i t sW.names = .ok rW :=
  (c1_amended_pinned_names env0 cp0).1 sW .watcherFired rW sW' rfl

/-- C4: the code's behaviour at the failing input. After the handshake, when
the encoder fails, the watcher-triggered path surfaces the failure as an
inline Internal stream item and terminates, but the resend path for an
inbound message (here a NACK) panics via `.unwrap()` instead of yielding an
inline Internal item: the claim's stated behaviour does not hold on that
path. -/
theorem c4_code_behavior :
    stepLoop envBad cp0 sW (.inbound (.req nackMsg0)) = .crash ∧
    stepLoop envBad cp0 sW .watcherFired = .fail (.internal "boom") ∧
    runLoop envBad cp0 sW [.stream (.inbound (.req nackMsg0))] = ([], .crashed) ∧
    runLoop envBad cp0 sW [.stream .watcherFired] =
      ([.errItem (.internal "boom")], .failed) :=
  ⟨rfl, rfl, rfl, rfl⟩

/-- C9 counterexample: at the concrete request with empty payload,
`delta_aggregated_resources` fails with an Unimplemented status whose message
is "Quilkin doesn't currently support Delta xDS", which is not the message
"Delta discovery not supported" the claim asserts. -/
theorem c9_counterexample :
    deltaAggregatedResources ⟨""⟩ =
      .error (.unimplemented "Quilkin doesn't currently support Delta xDS") ∧
    "Quilkin doesn't currently support Delta xDS" ≠ "Delta discovery not supported" :=
  ⟨rfl, by decide⟩

/-- C9 (amended): for every call, the `delta_aggregated_resources` RPC fails
immediately with an Unimplemented status whose message is "Quilkin doesn't
currently support Delta xDS", regardless of the request contents. -/
theorem c9_amended (request : DeltaDiscoveryRequest) :
    deltaAggregatedResources request =
      .error (.unimplemented "Quilkin doesn't currently support Delta xDS") :=
  rfl

/-- C7: the clusters-cell watch callback invokes `push_update` for Endpoint
and then for Cluster (each version counter goes up by one and one broadcast
notification is sent for each, while Listener is untouched); the filters-cell
watch callback invokes `push_update` for Listener only; each `push_update`
increments its resource type's version counter by exactly one and then sends
one broadcast notification; hence over any sequence of cell-change events
every resource type's version counter is monotonically non-decreasing. -/
theorem c7_watch_wiring_and_version_monotone (cp : ControlPlaneState)
    (evs : List ConfigEvent) :
    ((applyConfigEvent cp .clustersChanged).ver .endpoint = cp.ver .endpoint + 1 ∧
      (applyConfigEvent cp .clustersChanged).ver .cluster = cp.ver .cluster + 1 ∧
      (applyConfigEvent cp .clustersChanged).notifySent .endpoint = cp.notifySent .endpoint + 1 ∧
      (applyConfigEvent cp .clustersChanged).notifySent .cluster = cp.notifySent .cluster + 1 ∧
      (applyConfigEvent cp .clustersChanged).ver .listener = cp.ver .listener) ∧
    ((applyConfigEvent cp .filtersChanged).ver .listener = cp.ver .listener + 1 ∧
      (applyConfigEvent cp .filtersChanged).notifySent .listener = cp.notifySent .listener + 1 ∧
      (applyConfigEvent cp .filtersChanged).ver .cluster = cp.ver .cluster ∧
      (applyConfigEvent cp .filtersChanged).ver .endpoint = cp.ver .endpoint) ∧
    (∀ rt, (pushUpdate rt cp).ver rt = cp.ver rt + 1 ∧
      (pushUpdate rt cp).notifySent rt = cp.notifySent rt + 1) ∧
    (∀ rt, cp.ver rt ≤ (applyConfigEvents cp evs).ver rt) := by
  refine ⟨?_, ?_, ?_, fun rt => ver_applyConfigEvents_le evs cp rt⟩
  · simp [applyConfigEvent, clustersChangedCallback, pushUpdate,
      ControlPlaneState.ver, ControlPlaneState.notifySent, ControlPlaneState.get]
  · simp [applyConfigEvent, filtersChangedCallback, pushUpdate,
      ControlPlaneState.ver, ControlPlaneState.notifySent, ControlPlaneState.get]
  · intro rt
    cases rt <;>
      simp [pushUpdate, ControlPlaneState.ver, ControlPlaneState.notifySent,
        ControlPlaneState.get]

/-- C8: `/ready` and `/readyz` in Proxy mode return 200 exactly when the
loaded cluster snapshot has at least one endpoint and 500 otherwise; in Xds
mode they return the health check (200 when healthy); any path outside the
defined routes, and any non-GET method, gets 404 Not Found. -/
theorem c8_admin_routes (method : HttpMethod) (path : String) (mode : Mode)
    (config : AdminConfig) (health : Health) (metricsBody : Except Unit String) :
    ((path = "/ready" ∨ path = "/readyz") →
      (handleRequest .get path .proxy config health metricsBody =
        if config.endpointsCount > 0 then ⟨200, "ok"⟩ else ⟨500, ""⟩) ∧
      handleRequest .get path .xds config health metricsBody = checkHealthy health ∧
      (health.healthy = true →
        (handleRequest .get path .xds config health metricsBody).status = 200)) ∧
    (method ≠ .get → handleRequest method path mode config health metricsBody = ⟨404, ""⟩) ∧
    (path ∉ (["/metrics", "/live", "/livez", "/ready", "/readyz", "/config"] : List String) →
      handleRequest method path mode config health metricsBody = ⟨404, ""⟩) := by
  refine ⟨?_, ?_, ?_⟩
  · rintro (rfl | rfl) <;>
      refine ⟨by simp [handleRequest, checkProxyReadiness], rfl, fun hh => ?_⟩ <;>
      simp [handleRequest, checkHealthy, hh]
  · intro hm
    cases method with
    | get => exact absurd rfl hm
    | post => rfl
    | put => rfl
    | head => rfl
  · intro hp
    simp only [List.mem_cons, List.mem_singleton, not_or] at hp
    obtain ⟨h1, h2, h3, h4, h5, h6, -⟩ := hp
    cases method with
    | get => simp [handleRequest, h1, h2, h3, h4, h5, h6]
    | post => rfl
    | put => rfl
    | head => rfl

/-- C8 witness: with zero endpoints `/ready` in Proxy mode is 500; a POST to
`/ready` and a GET to an unknown path are both 404. -/
theorem c8_witness :
    handleRequest .get "/ready" .proxy ⟨0, .ok "dump"⟩ ⟨true⟩ (.ok "") = ⟨500, ""⟩ ∧
    handleRequest .post "/ready" .proxy ⟨0, .ok "dump"⟩ ⟨true⟩ (.ok "") = ⟨404, ""⟩ ∧
    handleRequest .get "/bogus" .proxy ⟨0, .ok "dump"⟩ ⟨true⟩ (.ok "") = ⟨404, ""⟩ :=
  ⟨by
    have h := ((c8_admin_routes .get "/ready" .proxy ⟨0, .ok "dump"⟩ ⟨true⟩
      (.ok "")).1 (Or.inl rfl)).1
    simpa using h,
   (c8_admin_routes .post "/ready" .proxy ⟨0, .ok "dump"⟩ ⟨true⟩ (.ok "")).2.1 (by decide),
   (c8_admin_routes .get "/bogus" .proxy ⟨0, .ok "dump"⟩ ⟨true⟩ (.ok "")).2.2 (by decide)⟩

/-- C5: during the handshake, an empty inbound stream fails the RPC with
InvalidArgument "No message found"; a first message without a node fails with
InvalidArgument "Node identifier required"; a first message whose type URL
does not parse fails with the unknown-resource-type error; and whenever the
handshake fails, the RPC fails with that status and no stream item is ever
emitted. -/
theorem c5_handshake_failures (env : Env) (cp : ControlPlaneState) :
    handshake1 env cp none = .error (.invalidArgument "No message found") ∧
    (∀ m : DiscoveryRequest, m.node = none →
      handshake1 env cp (some (.req m)) = .error (.invalidArgument "Node identifier required")) ∧
    (∀ (m : DiscoveryRequest) (n : Node) (u : String), m.node = some n →
      parseResourceType m.type_url = .error u →
      handshake1 env cp (some (.req m)) = .error (.unknownResourceType u)) ∧
    (∀ (first : Option StreamItem) (evs : List LoopEvent) (e : Status),
      handshake1 env cp first = .error e →
      streamAggregatedResources env cp first evs = .error e ∧
      fullRunOutputs env cp first evs = []) := by
  refine ⟨rfl, ?_, ?_, ?_⟩
  · intro m hm
    simp [handshake1, hm]
  · intro m n u hm hu
    simp [handshake1, hm, hu]
  · intro first evs e he
    have h1 : streamAggregatedResources env cp first evs = .error e := by
      simp [streamAggregatedResources, he]
    exact ⟨h1, by simp [fullRunOutputs, h1]⟩

/-- C5 witness: the three handshake failures at concrete inputs, with no
stream item emitted. -/
theorem c5_witness :
    handshake1 env0 cp0 none = .error (.invalidArgument "No message found") ∧
    handshake1 env0 cp0 (some (.req noNodeMsg0)) =
      .error (.invalidArgument "Node identifier required") ∧
    handshake1 env0 cp0 (some (.req badTypeInitMsg0)) =
      .error (.unknownResourceType "invalid") ∧
    fullRunOutputs env0 cp0 none [] = [] := by
  have h := c5_handshake_failures env0 cp0
  exact ⟨h.1, h.2.1 noNodeMsg0 rfl, h.2.2.1 badTypeInitMsg0 ⟨"quilkin"⟩ "invalid" rfl rfl,
    (h.2.2.2 none [] (.invalidArgument "No message found") h.1).2⟩

/-- C6: a post-handshake inbound message whose type URL fails to parse is
skipped: the loop iteration leaves the stream state unchanged, emits nothing,
does not terminate, and the rest of the events are processed exactly as if
the message had not arrived. -/
theorem c6_bad_type_url_skipped (env : Env) (cp : ControlPlaneState)
    (s : StreamState) (m : DiscoveryRequest) (u : String)
    (h : parseResourceType m.type_url = .error u) (evs : List LoopEvent) :
    stepLoop env cp s (.inbound (.req m)) = .skip s ∧
    runLoop env cp s (.stream (.inbound (.req m)) :: evs) = runLoop env cp s evs := by
  have h1 : stepLoop env cp s (.inbound (.req m)) = .skip s := by
    simp [stepLoop, h]
  exact ⟨h1, by simp [runLoop, h1]⟩

/-- C6 witness: a concrete mid-stream message with type URL "invalid" is
skipped and the loop continues. -/
theorem c6_witness :
    stepLoop env0 cp0 sW (.inbound (.req badTypeMidMsg0)) = .skip sW ∧
    runLoop env0 cp0 sW [.stream (.inbound (.req badTypeMidMsg0))] = runLoop env0 cp0 sW [] :=
  c6_bad_type_url_skipped env0 cp0 sW badTypeMidMsg0 "invalid" rfl []

lemma runLoop_versions (env : Env) (t : ResourceType) :
    ∀ (evs : List LoopEvent) (cp : ControlPlaneState) (s : StreamState),
      ∃ vs : List Nat,
        versionStringsFor t (runLoop env cp s evs).1 = vs.map Nat.repr ∧
        vs.Chain' (· ≤ ·) ∧ ∀ v ∈ vs, cp.ver t ≤ v := by
  intro evs
  induction evs with
  | nil =>
    intro cp s
    exact ⟨[], by simp [runLoop, versionStringsFor], by simp, by simp⟩
  | cons ev evs ih =>
    intro cp s
    cases ev with
    | push rt =>
      obtain ⟨vs, h1, h2, h3⟩ := ih (pushUpdate rt cp) s
      exact ⟨vs, by simpa [runLoop] using h1, h2,
        fun v hv => le_trans (ver_pushUpdate_le rt t cp) (h3 v hv)⟩
    | stream sev =>
      cases hs : stepLoop env cp s sev with
      | emit r s' =>
        obtain ⟨vs, h1, h2, h3⟩ := ih cp s'
        obtain ⟨-, hdisj⟩ := stepLoop_emit_cases hs
        have hr : ∃ t', r.type_url = t'.typeUrl ∧ r.version_info = Nat.repr (cp.ver t') := by
          rcases hdisj with ⟨-, hd⟩ | ⟨m, mrt, -, -, hd⟩
          · obtain ⟨hv, ht, -, -⟩ := discoveryResponse_ok hd
            exact ⟨s.rt, ht, hv⟩
          · obtain ⟨hv, ht, -, -⟩ := discoveryResponse_ok hd
            exact ⟨mrt, ht, hv⟩
        obtain ⟨t', ht', hv'⟩ := hr
        by_cases hteq : t' = t
        · subst hteq
          refine ⟨cp.ver t' :: vs, ?_, ?_, ?_⟩
          · simp [runLoop, hs, versionStringsFor, outputTypeVersion, ht', hv']
            simpa [versionStringsFor] using h1
          · exact List.chain'_cons'.mpr
              ⟨fun b hb => h3 b (List.mem_of_mem_head? hb), h2⟩
          · intro v hv
            rcases List.mem_cons.mp hv with rfl | hv
            · exact le_refl _
            · exact h3 v hv
        · have hne : r.type_url ≠ t.typeUrl := by
            rw [ht']
            intro hc
            exact hteq (typeUrl_inj hc)
          refine ⟨vs, ?_, h2, h3⟩
          simp [runLoop, hs, versionStringsFor, outputTypeVersion, hne]
          simpa [versionStringsFor] using h1
      | skip s' =>
        obtain ⟨vs, h1, h2, h3⟩ := ih cp s'
        exact ⟨vs, by simpa [runLoop, hs] using h1, h2, h3⟩
      | fail e =>
        exact ⟨[], by simp [runLoop, hs, versionStringsFor, outputTypeVersion], by simp, by simp⟩
      | crash =>
        exact ⟨[], by simp [runLoop, hs, versionStringsFor], by simp, by simp⟩
      | finish =>
        exact ⟨[], by simp [runLoop, hs, versionStringsFor], by simp, by simp⟩

/-- C2 counterexample: on the concrete run that performs an Endpoint
handshake and then receives a NACK with no intervening configuration change,
the stream emits two Endpoint responses whose version strings interpret to
the decimal integers 0 and 0, which is not strictly increasing. -/
theorem c2_counterexample :
    versionNatsFor .endpoint (fullRunOutputs env0 cp0 first0
      [.stream (.inbound (.req nackMsg0))]) = [0, 0] ∧
    ¬ List.Chain' (· < ·) ([0, 0] : List Nat) :=
  ⟨rfl, by simp⟩

/-- C2 (amended): for every resource type and every stream run, the sequence
of `version_info` strings carried by that type's responses is the decimal
rendering of a monotonically non-decreasing (not necessarily strictly
increasing) sequence of integers. -/
theorem c2_amended_versions_monotone (env : Env) (cp : ControlPlaneState)
    (first : Option StreamItem) (evs : List LoopEvent) (t : ResourceType) :
    ∃ vs : List Nat,
      versionStringsFor t (fullRunOutputs env cp first evs) = vs.map Nat.repr ∧
      vs.Chain' (· ≤ ·) := by
  cases hh : handshake1 env cp first with
  | error e =>
    exact ⟨[], by simp [fullRunOutputs, streamAggregatedResources, hh, versionStringsFor],
      by simp⟩
  | ok p =>
    obtain ⟨resp, s⟩ := p
    obtain ⟨m, node, -, -, -, -, -, -, -, hd⟩ := handshake1_ok hh
    obtain ⟨hv, ht, -, -⟩ := discoveryResponse_ok hd
    obtain ⟨vs, h1, h2, h3⟩ := runLoop_versions env t evs cp s
    have hout : fullRunOutputs env cp first evs =
        .item resp :: (runLoop env cp s evs).1 := by
      simp [fullRunOutputs, streamAggregatedResources, hh]
    by_cases hteq : s.rt = t
    · subst hteq
      refine ⟨cp.ver s.rt :: vs, ?_, List.chain'_cons'.mpr
        ⟨fun b hb => h3 b (List.mem_of_mem_head? hb), h2⟩⟩
      simp [hout, versionStringsFor, outputTypeVersion, ht, hv]
      simpa [versionStringsFor] using h1
    · have hne : resp.type_url ≠ t.typeUrl := by
        rw [ht]
        intro hc
        exact hteq (typeUrl_inj hc)
      refine ⟨vs, ?_, h2⟩
      simp [hout, versionStringsFor, outputTypeVersion, hne]
      simpa [versionStringsFor] using h1

end Quilkin
